import Mathlib

/-!
Verification of the in-memory products REST API (`src/app.js`).

The Express handlers are shallowly embedded as pure functions over an
explicit store state.  JavaScript strings are modelled as Lean `String`
(ASCII-level semantics for `toLowerCase` and `trim`), JavaScript numbers
occurring as product prices as `Rat`, and thrown errors as `Except`
results paired with the state the process had at the moment of the throw.
Components of the repository that are imported by `app.js` but whose
files are not part of the sources (the auth, validation and error
middleware and the query/product helper modules) are modelled from the
specification; each such definition is marked `Modelled from the spec:`.
-/

/-- JavaScript `String.prototype.toLowerCase` (ASCII case mapping). -/
def jsToLower (s : String) : String := String.mk (s.data.map Char.toLower)

/-- JavaScript `String.prototype.trim`: drop leading and trailing whitespace. -/
def jsTrim (s : String) : String :=
  String.mk (((s.data.dropWhile Char.isWhitespace).reverse.dropWhile Char.isWhitespace).reverse)

/-- Numeric value of a decimal digit character. -/
def digitVal (c : Char) : Nat := c.toNat - ('0').toNat

/-- Is `c` a hexadecimal digit? -/
def isHexDigit (c : Char) : Bool :=
  c.isDigit || (('a' ≤ c.toLower) && (c.toLower ≤ 'f'))

/-- Numeric value of a hexadecimal digit character. -/
def hexDigitVal (c : Char) : Nat :=
  if c.isDigit then digitVal c else c.toLower.toNat - ('a').toNat + 10

/-- Fold a digit list into a natural number in the given base. -/
def natOfDigits (base : Nat) (val : Char → Nat) (ds : List Char) : Nat :=
  ds.foldl (fun a c => a * base + val c) 0

/-- Unsigned part of JavaScript `parseInt` (radix unspecified): an explicit
`0x`/`0X` prefix selects base 16, otherwise the longest leading run of
decimal digits is taken; no digits yields `NaN` (here `none`). -/
def parseIntCore : List Char → Option Nat
  | '0' :: c :: rest =>
    if c == 'x' || c == 'X' then
      let ds := rest.takeWhile isHexDigit
      if ds.isEmpty then none else some (natOfDigits 16 hexDigitVal ds)
    else
      some (natOfDigits 10 digitVal (('0' :: c :: rest).takeWhile Char.isDigit))
  | cs =>
    let ds := cs.takeWhile Char.isDigit
    if ds.isEmpty then none else some (natOfDigits 10 digitVal ds)

/-- JavaScript `parseInt(string)` as used on `req.params.id`: skip leading
whitespace, optional sign, then parse the longest numeric prefix;
`none` models `NaN`. -/
def parseIntJS (s : String) : Option Int :=
  match s.data.dropWhile Char.isWhitespace with
  | '-' :: rest => (parseIntCore rest).map (fun n => -(n : Int))
  | '+' :: rest => (parseIntCore rest).map (fun n => (n : Int))
  | cs => (parseIntCore cs).map (fun n => (n : Int))

/-- Modelled from the spec: numeric coercion of a query-parameter string
(`utils/queryHelpers.js` / `utils/productHelpers.js` are not in the
sources).  Parses an optionally signed decimal numeral with an optional
fractional part; anything else is unparseable (`none`), and per §9 an
unparseable bound just disables the corresponding filter.  Exponent
notation is not modelled. -/
def jsParseFloatCore (cs : List Char) : Option Rat :=
  let ds1 := cs.takeWhile Char.isDigit
  let rest := cs.drop ds1.length
  let ds2 :=
    match rest with
    | '.' :: r2 => r2.takeWhile Char.isDigit
    | _ => []
  if ds1.isEmpty && ds2.isEmpty then none
  else some ((natOfDigits 10 digitVal ds1 : Rat) +
    (natOfDigits 10 digitVal ds2 : Rat) / ((10 : Rat) ^ ds2.length))

/-- Modelled from the spec: JavaScript `parseFloat` on a query parameter,
restricted to plain decimal numerals (see `jsParseFloatCore`). -/
def jsParseFloat (s : String) : Option Rat :=
  match s.data.dropWhile Char.isWhitespace with
  | '-' :: rest => (jsParseFloatCore rest).map (fun q => -q)
  | '+' :: rest => jsParseFloatCore rest
  | cs => jsParseFloatCore cs

/-- A product record (`src/app.js` lines 40-45): integer id, name,
description, price, category, stock flag.  Prices are JavaScript numbers
used as decimals; they are modelled as rationals. -/
structure Product where
  id : Int
  name : String
  description : String
  price : Rat
  category : String
  inStock : Bool
deriving DecidableEq

/-- Default for the (unreachable) out-of-bounds array access. -/
def defaultProduct : Product :=
  { id := 0, name := (""), description := (""), price := 0, category := (""), inStock := false }

instance : Inhabited Product := ⟨defaultProduct⟩

/-- The mutable module state of `src/app.js`: the `products` array and the
`nextId` counter.  `assigned` is a ghost history variable recording, in
chronological order, every id the store has ever handed out (ids 1-3 are
pre-assigned to the seed data); it is written only where `nextId++` runs
and exists solely to state the id-freshness claims. -/
structure StoreState where
  products : List Product
  nextId : Int
  assigned : List Int
deriving DecidableEq

/-- Seed product 1 (`src/app.js` line 41); 1299.99 = mkRat 129999 100. -/
def seedLaptop : Product :=
  { id := 1, name := ("Laptop Pro"), description := ("High-performance laptop"),
    price := mkRat 129999 100, category := ("Electronics"), inStock := true }

/-- Seed product 2 (`src/app.js` line 42); 24.50 = mkRat 2450 100. -/
def seedMouse : Product :=
  { id := 2, name := ("Wireless Mouse"), description := ("Ergonomic mouse"),
    price := mkRat 2450 100, category := ("Accessories"), inStock := true }

/-- Seed product 3 (`src/app.js` line 43); 85.00 = mkRat 8500 100. -/
def seedCoffeeMaker : Product :=
  { id := 3, name := ("Coffee Maker"), description := ("12-cup automatic brewer"),
    price := mkRat 8500 100, category := ("Home Goods"), inStock := false }

/-- The initial store (`src/app.js` lines 40-45): three seed products and
`nextId = 4`. -/
def initialState : StoreState :=
  { products := [seedLaptop, seedMouse, seedCoffeeMaker], nextId := 4, assigned := [1, 2, 3] }

/-- The error kinds raised inside request handling (`utils/errors.js` is
not in the sources; the kinds and their carried data follow spec §7 and
the throw sites in `src/app.js`). -/
inductive ApiError where
  | badRequest (msg : String)
  | unauthorized
  | forbidden
  | notFound (msg : String)
  | conflict (msg : String)
  | validationFailed (errors : List String)
deriving DecidableEq

/-- Modelled from the spec: the fixed HTTP status each error kind maps to
(spec §7: 400/401/403/404/409/422). -/
def statusCode : ApiError → Nat
  | .badRequest _ => 400
  | .unauthorized => 401
  | .forbidden => 403
  | .notFound _ => 404
  | .conflict _ => 409
  | .validationFailed _ => 422

/-- Is the outcome an error of any kind? -/
def resultIsError : Except ApiError α → Bool
  | .error _ => true
  | .ok _ => false

/-- Is the outcome a `BadRequest` error? -/
def resultIsBadRequest : Except ApiError α → Bool
  | .error (.badRequest _) => true
  | _ => false

/-- Is the outcome a `Conflict` error? -/
def resultIsConflict : Except ApiError α → Bool
  | .error (.conflict _) => true
  | _ => false

/-- JavaScript `Array.prototype.findIndex`: index of the first element
satisfying the predicate (`findProductIndexById`, `src/app.js` lines 56-62,
signals NotFound on `-1`, modelled by `none`). -/
def findIndexJS (p : α → Bool) : List α → Option Nat
  | [] => none
  | x :: xs => if p x then some 0 else (findIndexJS p xs).map (· + 1)

/-- Body of a create request after JSON parsing, with the field types the
validation middleware guarantees. -/
structure CreateBody where
  name : String
  description : String
  price : Rat
  category : String
  inStock : Bool
deriving DecidableEq

/-- Body of an update request: any subset of the product fields may be
present (`undefined` is `none`). -/
structure UpdateBody where
  name : Option String := none
  description : Option String := none
  price : Option Rat := none
  category : Option String := none
  inStock : Option Bool := none
deriving DecidableEq

/-- The empty (no-op) update payload. -/
def emptyUpdateBody : UpdateBody := {}

/-- POST `/api/products` handler body (`src/app.js` lines 253-284): find a
duplicate by comparing each stored name case-folded against the trimmed,
case-folded payload name; on a hit throw Conflict (before `nextId++`),
otherwise append the new record built from the trimmed fields and the next
id.  The returned state is the module state at return or at the throw. -/
def createProductHandler (s : StoreState) (b : CreateBody) :
    Except ApiError Product × StoreState :=
  match s.products.find? (fun p => jsToLower p.name == jsToLower (jsTrim b.name)) with
  | some _ =>
    (.error (.conflict (("Product with name \"") ++ b.name ++ ("\" already exists"))), s)
  | none =>
    let newProduct : Product :=
      { id := s.nextId, name := jsTrim b.name, description := jsTrim b.description,
        price := b.price, category := jsTrim b.category, inStock := b.inStock }
    (.ok newProduct,
      { products := s.products ++ [newProduct], nextId := s.nextId + 1,
        assigned := s.assigned ++ [s.nextId] })

/-- The per-field partial update of `src/app.js` lines 316-320: each field
present in the payload overwrites the stored field (the name is stored
exactly as supplied, untrimmed); absent fields are untouched. -/
def updateFields (old : Product) (b : UpdateBody) : Product :=
  { id := old.id, name := b.name.getD old.name,
    description := b.description.getD old.description,
    price := b.price.getD old.price,
    category := b.category.getD old.category,
    inStock := b.inStock.getD old.inStock }

/-- The mutation step of the PUT handler (`src/app.js` lines 315-323):
overwrite the fields present in the payload on the record at
`productIndex`, leaving the rest in place. -/
def applyUpdateAt (s : StoreState) (productIndex : Nat) (b : UpdateBody) :
    Except ApiError Product × StoreState :=
  let old := (s.products[productIndex]?).getD defaultProduct
  let updated := updateFields old b
  (.ok updated, { s with products := s.products.set productIndex updated })

/-- PUT `/api/products/:id` handler body (`src/app.js` lines 290-324):
parse the id (`BadRequest` on `NaN`), locate the record (`NotFound`), and
when a name is supplied and truthy (non-empty) look for another record
whose stored case-folded name equals the trimmed case-folded new name
(`Conflict`); otherwise overwrite the provided fields in place via
`applyUpdateAt`. -/
def updateProductHandler (s : StoreState) (idStr : String) (b : UpdateBody) :
    Except ApiError Product × StoreState :=
  match parseIntJS idStr with
  | none => (.error (.badRequest ("Product ID must be a valid number")), s)
  | some id =>
    match findIndexJS (fun p => p.id == id) s.products with
    | none =>
      (.error (.notFound (("Product with ID ") ++ toString id ++ (" not found"))), s)
    | some productIndex =>
      match b.name with
      | some n =>
        if n == ("") then applyUpdateAt s productIndex b
        else
          match s.products.find?
              (fun p => (p.id != id) && (jsToLower p.name == jsToLower (jsTrim n))) with
          | some _ =>
            (.error (.conflict (("Product with name \"") ++ n ++ ("\" already exists"))), s)
          | none => applyUpdateAt s productIndex b
      | none => applyUpdateAt s productIndex b

/-- DELETE `/api/products/:id` handler body (`src/app.js` lines 329-345):
parse the id (`BadRequest` on `NaN`), locate the record (`NotFound`), then
splice it out and return it. -/
def deleteProductHandler (s : StoreState) (idStr : String) :
    Except ApiError Product × StoreState :=
  match parseIntJS idStr with
  | none => (.error (.badRequest ("Product ID must be a valid number")), s)
  | some id =>
    match findIndexJS (fun p => p.id == id) s.products with
    | none =>
      (.error (.notFound (("Product with ID ") ++ toString id ++ (" not found"))), s)
    | some productIndex =>
      let deletedProduct := (s.products[productIndex]?).getD defaultProduct
      (.ok deletedProduct, { s with products := s.products.eraseIdx productIndex })

/-- GET `/api/products/:id` handler body (`src/app.js` lines 231-247):
parse the id (`BadRequest` on `NaN`), then `findProductById` (`NotFound`
when absent); on success the bare product is the response payload. -/
def getProductByIdHandler (s : StoreState) (idStr : String) : Except ApiError Product :=
  match parseIntJS idStr with
  | none => .error (.badRequest ("Product ID must be a valid number"))
  | some id =>
    match s.products.find? (fun p => p.id == id) with
    | none => .error (.notFound (("Product with ID ") ++ toString id ++ (" not found")))
    | some product => .ok product

/-- The two keys accepted by the API (`src/app.js` lines 397-399 and the
repository README). -/
def validApiKeys : List String := [("your-secret-api-key-123"), ("another-valid-key-456")]

/-- Modelled from the spec: the auth gate of `middleware/auth.js` (not in
the sources).  Spec §4.5: absence of the `x-api-key` header signals
Unauthorized, presence with a non-member value signals Forbidden. -/
def authenticateApiKey : Option String → Option ApiError
  | none => some .unauthorized
  | some k => if k ∈ validApiKeys then none else some .forbidden

/-- Modelled from the spec: `validateProductCreation` of
`middleware/validation.js` (not in the sources).  Spec §4.4 and the
README: all fields required; name and category non-empty, name at most
100 characters, description at most 500, price a positive number; the
failures accumulate into a message list. -/
def validateProductCreation (b : CreateBody) : List String :=
  (if b.name == ("") || b.name.length > 100 then
    [("Name is required and must be a non-empty string")] else []) ++
  (if b.description.length > 500 then [("Description is too long")] else []) ++
  (if b.price ≤ 0 then [("Price must be a positive number")] else []) ++
  (if b.category == ("") then [("Category is required")] else [])

/-- Modelled from the spec: `validateProductUpdate` of
`middleware/validation.js` (not in the sources).  Spec §4.4: any subset of
the fields, each validated only if present; an empty payload passes. -/
def validateProductUpdate (b : UpdateBody) : List String :=
  (match b.name with
   | some n => if n == ("") || n.length > 100 then
       [("Name must be a non-empty string")] else []
   | none => []) ++
  (match b.description with
   | some d => if d.length > 500 then [("Description is too long")] else []
   | none => []) ++
  (match b.price with
   | some q => if q ≤ 0 then [("Price must be a positive number")] else []
   | none => []) ++
  (match b.category with
   | some c => if c == ("") then [("Category must be a non-empty string")] else []
   | none => [])

/-- The POST `/api/products` route (`src/app.js` lines 250-253): the auth
gate runs first, then creation validation, then the handler; a middleware
failure ends the request before the store is read or written. -/
def postProductsRoute (key : Option String) (s : StoreState) (b : CreateBody) :
    Except ApiError Product × StoreState :=
  match authenticateApiKey key with
  | some e => (.error e, s)
  | none =>
    match validateProductCreation b with
    | [] => createProductHandler s b
    | errs => (.error (.validationFailed errs), s)

/-- The PUT `/api/products/:id` route (`src/app.js` lines 287-289): auth
gate, then update validation, then the handler. -/
def putProductRoute (key : Option String) (s : StoreState) (idStr : String) (b : UpdateBody) :
    Except ApiError Product × StoreState :=
  match authenticateApiKey key with
  | some e => (.error e, s)
  | none =>
    match validateProductUpdate b with
    | [] => updateProductHandler s idStr b
    | errs => (.error (.validationFailed errs), s)

/-- The DELETE `/api/products/:id` route (`src/app.js` lines 327-328):
auth gate, then the handler. -/
def deleteProductRoute (key : Option String) (s : StoreState) (idStr : String) :
    Except ApiError Product × StoreState :=
  match authenticateApiKey key with
  | some e => (.error e, s)
  | none => deleteProductHandler s idStr

/-- A mutating request against the API, as used to describe the states
reachable from the initial store. -/
inductive Op where
  | create (b : CreateBody)
  | update (idStr : String) (b : UpdateBody)
  | del (idStr : String)
deriving DecidableEq

/-- The store state after one request carrying a valid API key (requests
with failed auth or validation leave the store unchanged anyway). -/
def applyOp (s : StoreState) : Op → StoreState
  | .create b => (postProductsRoute (some ("your-secret-api-key-123")) s b).2
  | .update idStr b => (putProductRoute (some ("your-secret-api-key-123")) s idStr b).2
  | .del idStr => (deleteProductRoute (some ("your-secret-api-key-123")) s idStr).2

/-- The store state after a sequence of requests. -/
def runOps (s : StoreState) : List Op → StoreState
  | [] => s
  | op :: rest => runOps (applyOp s op) rest

/-- Does the character list `sub` occur at the head of `l`? -/
def startsWithChars : List Char → List Char → Bool
  | [], _ => true
  | _ :: _, [] => false
  | a :: as, b :: bs => (a == b) && startsWithChars as bs

/-- Does the character list `sub` occur contiguously inside `l`?
（JavaScript `String.prototype.includes`）. -/
def hasInfixChars (sub : List Char) : List Char → Bool
  | [] => sub.isEmpty
  | c :: cs => startsWithChars sub (c :: cs) || hasInfixChars sub cs

/-- JavaScript `hay.includes(sub)` on strings. -/
def strContainsJS (hay sub : String) : Bool := hasInfixChars sub.data hay.data

/-- Modelled from the spec: `searchByName` of `utils/productHelpers.js`
(not in the sources).  Spec §4.3: case-insensitive substring match
against name and, per the docs, description. -/
def searchByName (l : List Product) (q : String) : List Product :=
  l.filter (fun p =>
    strContainsJS (jsToLower p.name) (jsToLower q) ||
    strContainsJS (jsToLower p.description) (jsToLower q))

/-- Modelled from the spec: `filterByCategory` of `utils/productHelpers.js`
(not in the sources).  Spec §4.3: case-insensitive exact match on
category; no-op if the parameter is absent or empty. -/
def filterByCategory (l : List Product) : Option String → List Product
  | none => l
  | some c =>
    if c == ("") then l
    else l.filter (fun p => jsToLower p.category == jsToLower c)

/-- Modelled from the spec: `filterByStock` of `utils/productHelpers.js`
(not in the sources).  Spec §4.3: no-op if absent; otherwise the string
is coerced to a boolean (`"true"` and only it giving `true`) and matching
records are kept. -/
def filterByStock (l : List Product) : Option String → List Product
  | none => l
  | some v => l.filter (fun p => p.inStock == (v == ("true")))

/-- Modelled from the spec: `filterByPriceRange` of
`utils/productHelpers.js` (not in the sources).  Spec §4.3: each bound is
a no-op when absent or unparseable, otherwise keeps `price >= min` and/or
`price <= max`. -/
def filterByPriceRange (l : List Product) (minS maxS : Option String) : List Product :=
  let l1 :=
    match minS.bind jsParseFloat with
    | some m => l.filter (fun p => decide (m ≤ p.price))
    | none => l
  match maxS.bind jsParseFloat with
  | some m => l1.filter (fun p => decide (p.price ≤ m))
  | none => l1

/-- Sort direction of a parsed sort descriptor. -/
inductive SortOrder where
  | asc
  | desc
deriving DecidableEq

/-- A parsed sort directive: a field name and a direction. -/
structure SortParams where
  field : String
  order : SortOrder
deriving DecidableEq

/-- Modelled from the spec: `parseSort` of `utils/queryHelpers.js` (not in
the sources).  Spec §4.2: a leading `-` selects descending order on the
remaining field name; absence of the parameter yields no descriptor, and
unrecognized field names pass through uninterpreted. -/
def parseSort (sort : Option String) : Option SortParams :=
  match sort with
  | none => none
  | some str =>
    if str == ("") then none
    else if str.startsWith ("-") then some { field := str.drop 1, order := .desc }
    else some { field := str, order := .asc }

/-- Boolean linear order on strings used for lexicographic sorting. -/
def strLeBool (a b : String) : Bool := !(decide (b < a))

/-- Comparison on the named product field: numeric fields numerically,
others lexicographically; an unknown field compares everything equal so a
stable sort leaves the order unchanged (spec §4.2: unrecognized fields
pass through uninterpreted). -/
def fieldLeBool (field : String) (p q : Product) : Bool :=
  if field == ("price") then decide (p.price ≤ q.price)
  else if field == ("id") then decide (p.id ≤ q.id)
  else if field == ("name") then strLeBool p.name q.name
  else if field == ("category") then strLeBool p.category q.category
  else if field == ("description") then strLeBool p.description q.description
  else if field == ("inStock") then !p.inStock || q.inStock
  else true

/-- Stable insertion into an already sorted list: the new element goes
after the elements it compares equal to. -/
def insertSorted (le : α → α → Bool) (x : α) : List α → List α
  | [] => [x]
  | y :: ys => if le y x then y :: insertSorted le x ys else x :: y :: ys

/-- Stable insertion sort. -/
def sortList (le : α → α → Bool) : List α → List α
  | [] => []
  | x :: xs => insertSorted le x (sortList le xs)

/-- Modelled from the spec: `sortProducts` of `utils/productHelpers.js`
(not in the sources).  Spec §4.3: stable comparison ascending or
descending on the named field. -/
def sortProducts (l : List Product) (field : String) (order : SortOrder) : List Product :=
  match order with
  | .asc => sortList (fieldLeBool field) l
  | .desc => sortList (fun p q => fieldLeBool field q p) l

/-- Modelled from the spec: the record returned by `parsePagination` of
`utils/queryHelpers.js` (not in the sources). -/
structure PageParams where
  page : Nat
  limit : Nat
  skip : Nat
deriving DecidableEq

/-- The raw query parameters of a GET `/api/products` request
(`req.query`; absent parameters are `none`). -/
structure ListQuery where
  category : Option String := none
  inStock : Option String := none
  minPrice : Option String := none
  maxPrice : Option String := none
  q : Option String := none
  sort : Option String := none
  page : Option String := none
  limit : Option String := none
deriving DecidableEq

/-- Modelled from the spec: `parsePagination` of `utils/queryHelpers.js`
(not in the sources).  Spec §4.2 and the README: `page` defaults to 1 and
is floored to 1 when not positive; `limit` defaults to 10 and is clamped
to the configured maximum of 100; `skip = (page - 1) * limit`. -/
def parsePagination (qp : ListQuery) : PageParams :=
  let page : Nat :=
    match qp.page.bind parseIntJS with
    | some v => if v ≤ 0 then 1 else v.toNat
    | none => 1
  let limit : Nat :=
    match qp.limit.bind parseIntJS with
    | some v => if v ≤ 0 then 1 else min v.toNat 100
    | none => 10
  { page := page, limit := limit, skip := (page - 1) * limit }

/-- Modelled from the spec: `paginateProducts` of
`utils/productHelpers.js` (not in the sources).  Spec §4.3: the
sub-sequence `[skip, skip + limit)` of the list, clamped to the available
length (JavaScript `list.slice(skip, skip + limit)` for non-negative
arguments). -/
def paginateProducts (l : List α) (skip limit : Nat) : List α :=
  (l.drop skip).take limit

/-- The pagination metadata block (README response examples and spec
§4.2). -/
structure PaginationMeta where
  currentPage : Nat
  totalPages : Nat
  totalItems : Nat
  itemsPerPage : Nat
  hasNextPage : Bool
  hasPrevPage : Bool
  nextPage : Option Nat
  prevPage : Option Nat
deriving DecidableEq

/-- Modelled from the spec: `createPaginationMeta` of
`utils/queryHelpers.js` (not in the sources).  Spec §4.2:
`totalPages = ceil(totalCount / limit)`, `hasNextPage = page < totalPages`,
`hasPrevPage = page > 1`, and the adjacent page numbers or null. -/
def createPaginationMeta (totalCount page limit : Nat) : PaginationMeta :=
  let totalPages := if limit == 0 then 0 else (totalCount + limit - 1) / limit
  { currentPage := page, totalPages := totalPages, totalItems := totalCount,
    itemsPerPage := limit,
    hasNextPage := decide (page < totalPages), hasPrevPage := decide (1 < page),
    nextPage := if page < totalPages then some (page + 1) else none,
    prevPage := if 1 < page then some (page - 1) else none }

/-- The part of the GET `/api/products` response the list claims are
about. -/
structure ListResponse where
  pagination : PaginationMeta
  data : List Product
deriving DecidableEq

/-- GET `/api/products` handler body (`src/app.js` lines 117-163): search
when `q` is truthy, then the category, stock and price filters, then
sorting when a directive parses, then the total count is taken, then
pagination is applied; the metadata is computed from the pre-pagination
count. -/
def listProductsHandler (s : StoreState) (qp : ListQuery) : ListResponse :=
  let filteredProducts := s.products
  let afterSearch :=
    match qp.q with
    | some qs => if qs == ("") then filteredProducts else searchByName filteredProducts qs
    | none => filteredProducts
  let afterCategory := filterByCategory afterSearch qp.category
  let afterStock := filterByStock afterCategory qp.inStock
  let afterPrice := filterByPriceRange afterStock qp.minPrice qp.maxPrice
  let sortParams := parseSort qp.sort
  let afterSort :=
    match sortParams with
    | some sp => sortProducts afterPrice sp.field sp.order
    | none => afterPrice
  let totalCount := afterSort.length
  let pp := parsePagination qp
  let paginatedProducts := paginateProducts afterSort pp.skip pp.limit
  { pagination := createPaginationMeta totalCount pp.page pp.limit,
    data := paginatedProducts }

/-- The search-filter-sort pipeline of the GET `/api/products` handler up
to, but not including, pagination (spec §4.3: search → filters → sort). -/
def listPipelineBeforePagination (s : StoreState) (qp : ListQuery) : List Product :=
  let afterSearch :=
    match qp.q with
    | some qs => if qs == ("") then s.products else searchByName s.products qs
    | none => s.products
  let afterFilters :=
    filterByPriceRange (filterByStock (filterByCategory afterSearch qp.category)
      qp.inStock) qp.minPrice qp.maxPrice
  match parseSort qp.sort with
  | some sp => sortProducts afterFilters sp.field sp.order
  | none => afterFilters

/-- The GET `/api/products` list route: auth gate, then the handler
(`src/app.js` lines 114-116). -/
def listProductsRoute (key : Option String) (s : StoreState) (qp : ListQuery) :
    Except ApiError ListResponse :=
  match authenticateApiKey key with
  | some e => .error e
  | none => .ok (listProductsHandler s qp)

/-- A JSON value, used to state what a handler actually serializes. -/
inductive Json where
  | null
  | bool (b : Bool)
  | num (q : Rat)
  | str (s : String)
  | arr (elems : List Json)
  | obj (fields : List (String × Json))

/-- The JSON serialization of a product record, field for field. -/
def productToJson (p : Product) : Json :=
  .obj [(("id"), .num p.id), (("name"), .str p.name),
    (("description"), .str p.description), (("price"), .num p.price),
    (("category"), .str p.category), (("inStock"), .bool p.inStock)]

/-- The top-level keys of a JSON object. -/
def jsonKeys : Json → List String
  | .obj fields => fields.map Prod.fst
  | _ => []

/-- The body GET `/api/products/:id` serializes on success
(`src/app.js` line 246: `res.json(product)` — the bare record). -/
def getProductByIdResponse (s : StoreState) (idStr : String) : Except ApiError Json :=
  (getProductByIdHandler s idStr).map productToJson

/-- The valid API key used when driving request sequences. -/
def wValidKey : String := ("your-secret-api-key-123")

/-- Update payload renaming a product to an untrimmed variant of its own
name (the update duplicate check excludes the record itself, and the
assignment on line 316 stores the name untrimmed). -/
def cexUpdateBody : UpdateBody := { name := some (" Laptop Pro ") }

/-- Create payload whose trimmed name collides, after trimming both, with
the renamed product above. -/
def cexCreateBody : CreateBody :=
  { name := ("Laptop Pro"), description := ("d"), price := 1, category := ("X"),
    inStock := true }

/-- A request sequence reaching a state with two live products whose
names are equal case-insensitively after trimming. -/
def cexOps : List Op := [Op.update ("1") cexUpdateBody, Op.create cexCreateBody]

/-- The store after renaming product 1 to `" Laptop Pro "`. -/
def cexState1 : StoreState := runOps initialState [Op.update ("1") cexUpdateBody]

/-- Does this operation, when it is an update, carry an already trimmed
name (or none)? -/
def opNameTrimmed : Op → Bool
  | .update _ b =>
    match b.name with
    | some n => jsTrim n == n
    | none => true
  | _ => true

/-- Create payload that collides case-insensitively with seed product 1. -/
def dupCreateBody : CreateBody :=
  { name := ("laptop pro"), description := ("d"), price := 1, category := ("X"),
    inStock := true }

/-- Fresh create payload used by the id-freshness witness. -/
def wCreateBody : CreateBody :=
  { name := ("Standing Desk"), description := ("d"), price := 1, category := ("X"),
    inStock := true }

/-- The record `wCreateBody` creates against the initial store. -/
def wNewProduct : Product :=
  { id := 4, name := ("Standing Desk"), description := ("d"), price := 1,
    category := ("X"), inStock := true }

/-- The store after creating `wCreateBody` against the initial store. -/
def wStateAfter : StoreState :=
  { products := initialState.products ++ [wNewProduct], nextId := 5,
    assigned := [1, 2, 3, 4] }

/-- Update payload touching only the price. -/
def wUpdBody : UpdateBody := { price := some 30 }

/-- Seed product 2 with only its price changed by `wUpdBody`. -/
def wMouseAfter : Product :=
  { id := 2, name := ("Wireless Mouse"), description := ("Ergonomic mouse"),
    price := 30, category := ("Accessories"), inStock := true }

/-- The store after updating product 2 with `wUpdBody`. -/
def wStateUpd : StoreState :=
  { products := [seedLaptop, wMouseAfter, seedCoffeeMaker], nextId := 4,
    assigned := [1, 2, 3] }

/-- Id-freshness invariant: the ghost assignment history is strictly
increasing, bounded by `nextId`, and covers every live product's id. -/
def IdInv (s : StoreState) : Prop :=
  List.Pairwise (· < ·) s.assigned ∧
  (∀ i ∈ s.assigned, i < s.nextId) ∧
  (∀ p ∈ s.products, p.id ∈ s.assigned)

/-- Name invariant: every live name is fixed by trimming, live names are
pairwise distinct after case folding, live ids are pairwise distinct, and
live ids are below `nextId`. -/
def NameInv (s : StoreState) : Prop :=
  (∀ p ∈ s.products, jsTrim p.name = p.name) ∧
  List.Pairwise (fun p q : Product => jsToLower p.name ≠ jsToLower q.name) s.products ∧
  List.Pairwise (fun p q : Product => p.id ≠ q.id) s.products ∧
  (∀ p ∈ s.products, p.id < s.nextId)

theorem getAt_append_length (u : List α) (x : α) (v : List α) :
    (u ++ x :: v)[u.length]? = some x := by
  induction u with
  | nil => simp
  | cons a as ih => simpa using ih

theorem set_append_length (u : List α) (x b : α) (v : List α) :
    (u ++ x :: v).set u.length b = u ++ b :: v := by
  induction u with
  | nil => rfl
  | cons a as ih => simp [ih]

theorem eraseIdx_append_length (u : List α) (x : α) (v : List α) :
    (u ++ x :: v).eraseIdx u.length = u ++ v := by
  induction u with
  | nil => rfl
  | cons a as ih => simpa [List.eraseIdx] using ih

theorem findIndexJS_eq_some {p : α → Bool} :
    ∀ {l : List α} {i : Nat}, findIndexJS p l = some i →
      ∃ u x v, l = u ++ x :: v ∧ u.length = i ∧ p x = true ∧ ∀ y ∈ u, p y = false := by
  intro l
  induction l with
  | nil => intro i h; simp [findIndexJS] at h
  | cons a as ih =>
    intro i h
    by_cases hp : p a
    · simp only [findIndexJS, if_pos hp, Option.some.injEq] at h
      exact ⟨[], a, as, by simp, by simpa using h, hp, by simp⟩
    · simp only [findIndexJS, if_neg hp] at h
      rcases Option.map_eq_some'.mp h with ⟨j, hj, hij⟩
      rcases ih hj with ⟨u, x, v, hl, hlen, hx, hu⟩
      refine ⟨a :: u, x, v, by simp [hl], by simp [hlen, hij], hx, ?_⟩
      intro y hy
      rcases List.mem_cons.mp hy with rfl | hy2
      · simpa using hp
      · exact hu y hy2

theorem dropWhile_dropWhile (p : α → Bool) (l : List α) :
    (l.dropWhile p).dropWhile p = l.dropWhile p := by
  induction l with
  | nil => rfl
  | cons a as ih =>
    by_cases h : p a
    · simp [List.dropWhile_cons, h, ih]
    · simp [List.dropWhile_cons, h]

theorem dropWhile_rightTrim_fix {p : α → Bool} {l : List α} (h : l.dropWhile p = l) :
    ((l.reverse.dropWhile p).reverse).dropWhile p = (l.reverse.dropWhile p).reverse := by
  cases l with
  | nil => rfl
  | cons a as =>
    have hpa : p a = false := by
      have h0 := List.dropWhile_eq_self_iff.mp h (by simp)
      simpa using h0
    rw [List.reverse_cons, List.dropWhile_append]
    by_cases he : ((as.reverse.dropWhile p).isEmpty) = true
    · simp [he, List.dropWhile_cons, hpa]
    · simp only [he, Bool.false_eq_true, if_false, List.reverse_append]
      simp [List.dropWhile_cons, hpa]

theorem trimChars_idem (p : α → Bool) (d : List α) :
    ((((((d.dropWhile p).reverse.dropWhile p).reverse).dropWhile p).reverse.dropWhile p).reverse)
      = ((d.dropWhile p).reverse.dropWhile p).reverse := by
  rw [dropWhile_rightTrim_fix (dropWhile_dropWhile p d), List.reverse_reverse,
    dropWhile_dropWhile]

theorem jsTrim_jsTrim (s : String) : jsTrim (jsTrim s) = jsTrim s :=
  congrArg String.mk (trimChars_idem Char.isWhitespace s.data)

theorem pairwise_replace_middle {R : α → α → Prop} {u v : List α} {x nw : α}
    (h : List.Pairwise R (u ++ x :: v))
    (hl : ∀ a ∈ u, R a nw) (hr : ∀ c ∈ v, R nw c) :
    List.Pairwise R (u ++ nw :: v) := by
  rw [List.pairwise_append] at h ⊢
  obtain ⟨hu, hxv, hcross⟩ := h
  rw [List.pairwise_cons] at hxv ⊢
  refine ⟨hu, ⟨hr, hxv.2⟩, ?_⟩
  intro a ha c hc
  rcases List.mem_cons.mp hc with rfl | hc
  · exact hl a ha
  · exact hcross a ha c (List.mem_cons.mpr (Or.inr hc))

theorem IdInv_set {s : StoreState} {u v : List Product} {x nw : Product}
    (h : IdInv s) (hd : s.products = u ++ x :: v) (hid : nw.id = x.id) :
    IdInv { s with products := u ++ nw :: v } := by
  obtain ⟨h1, h2, h3⟩ := h
  refine ⟨h1, h2, ?_⟩
  intro p hp
  rcases List.mem_append.mp hp with hp | hp
  · exact h3 p (by rw [hd]; simp [hp])
  · rcases List.mem_cons.mp hp with rfl | hp
    · rw [hid]; exact h3 x (by rw [hd]; simp)
    · exact h3 p (by rw [hd]; simp [hp])

theorem IdInv_erase {s : StoreState} {u v : List Product} {x : Product}
    (h : IdInv s) (hd : s.products = u ++ x :: v) :
    IdInv { s with products := u ++ v } := by
  obtain ⟨h1, h2, h3⟩ := h
  refine ⟨h1, h2, ?_⟩
  intro p hp
  apply h3
  rw [hd]
  rcases List.mem_append.mp hp with hp | hp
  · simp [hp]
  · simp [hp]

theorem NameInv_set {s : StoreState} {u v : List Product} {x nw : Product}
    (h : NameInv s) (hd : s.products = u ++ x :: v)
    (htrim : jsTrim nw.name = nw.name) (hid : nw.id = x.id)
    (hdistinct : ∀ p ∈ s.products, p.id ≠ x.id → jsToLower p.name ≠ jsToLower nw.name) :
    NameInv { s with products := u ++ nw :: v } := by
  obtain ⟨h1, h2, h3, h4⟩ := h
  rw [hd] at h1 h2 h3 h4
  have hidu : ∀ a ∈ u, a.id ≠ x.id := by
    intro a ha
    exact (List.pairwise_append.mp h3).2.2 a ha x (by simp)
  have hidv : ∀ c ∈ v, c.id ≠ x.id := by
    intro c hc
    have := (List.pairwise_cons.mp (List.pairwise_append.mp h3).2.1).1 c hc
    exact fun hh => this hh.symm
  refine ⟨?_, ?_, ?_, ?_⟩
  · intro p hp
    rcases List.mem_append.mp hp with hp | hp
    · exact h1 p (by simp [hp])
    · rcases List.mem_cons.mp hp with rfl | hp
      · exact htrim
      · exact h1 p (by simp [hp])
  · apply pairwise_replace_middle h2
    · intro a ha
      exact hdistinct a (by rw [hd]; simp [ha]) (hidu a ha)
    · intro c hc
      exact fun he => hdistinct c (by rw [hd]; simp [hc]) (hidv c hc) he.symm
  · apply pairwise_replace_middle h3
    · intro a ha
      rw [hid]
      exact hidu a ha
    · intro c hc
      rw [hid]
      exact fun he => (hidv c hc) he.symm
  · intro p hp
    rcases List.mem_append.mp hp with hp | hp
    · exact h4 p (by simp [hp])
    · rcases List.mem_cons.mp hp with rfl | hp
      · rw [hid]; exact h4 x (by simp)
      · exact h4 p (by simp [hp])

theorem NameInv_erase {s : StoreState} {u v : List Product} {x : Product}
    (h : NameInv s) (hd : s.products = u ++ x :: v) :
    NameInv { s with products := u ++ v } := by
  obtain ⟨h1, h2, h3, h4⟩ := h
  rw [hd] at h1 h2 h3 h4
  have hsub : (u ++ v).Sublist (u ++ x :: v) := (List.sublist_cons_self x v).append_left u
  exact ⟨fun p hp => h1 p (hsub.subset hp), List.Pairwise.sublist hsub h2,
    List.Pairwise.sublist hsub h3, fun p hp => h4 p (hsub.subset hp)⟩

theorem createHandler_IdInv {s : StoreState} {b : CreateBody} (h : IdInv s) :
    IdInv (createProductHandler s b).2 := by
  unfold createProductHandler
  split
  · exact h
  · obtain ⟨h1, h2, h3⟩ := h
    dsimp only
    refine ⟨?_, ?_, ?_⟩
    · rw [List.pairwise_append]
      refine ⟨h1, List.pairwise_singleton _ _, ?_⟩
      intro a ha c hc
      rw [List.mem_singleton] at hc
      subst hc
      exact h2 a ha
    · intro i hi
      show i < s.nextId + 1
      rcases List.mem_append.mp hi with hi | hi
      · have := h2 i hi
        omega
      · rw [List.mem_singleton] at hi
        subst hi
        omega
    · intro p hp
      rcases List.mem_append.mp hp with hp | hp
      · exact List.mem_append.mpr (Or.inl (h3 p hp))
      · rw [List.mem_singleton] at hp
        subst hp
        exact List.mem_append.mpr (Or.inr (by simp))

theorem createHandler_NameInv {s : StoreState} {b : CreateBody} (h : NameInv s) :
    NameInv (createProductHandler s b).2 := by
  unfold createProductHandler
  split
  · exact h
  · rename_i hfind
    obtain ⟨h1, h2, h3, h4⟩ := h
    have hdist : ∀ p ∈ s.products, jsToLower p.name ≠ jsToLower (jsTrim b.name) := by
      intro p hp he
      exact (List.find?_eq_none.mp hfind p hp) (beq_iff_eq.mpr he)
    dsimp only
    refine ⟨?_, ?_, ?_, ?_⟩
    · intro p hp
      rcases List.mem_append.mp hp with hp | hp
      · exact h1 p hp
      · rw [List.mem_singleton] at hp
        subst hp
        exact jsTrim_jsTrim b.name
    · rw [List.pairwise_append]
      refine ⟨h2, List.pairwise_singleton _ _, ?_⟩
      intro a ha c hc
      rw [List.mem_singleton] at hc
      subst hc
      exact hdist a ha
    · rw [List.pairwise_append]
      refine ⟨h3, List.pairwise_singleton _ _, ?_⟩
      intro a ha c hc
      rw [List.mem_singleton] at hc
      subst hc
      intro he
      have he2 : a.id = s.nextId := he
      have := h4 a ha
      omega
    · intro p hp
      show p.id < s.nextId + 1
      rcases List.mem_append.mp hp with hp | hp
      · have := h4 p hp
        omega
      · rw [List.mem_singleton] at hp
        subst hp
        show s.nextId < s.nextId + 1
        omega

theorem applyUpdateAt_decomp {s : StoreState} {id : Int} {idx : Nat} {b : UpdateBody}
    (hfi : findIndexJS (fun p => p.id == id) s.products = some idx) :
    ∃ u x v, s.products = u ++ x :: v ∧ u.length = idx ∧ x.id = id ∧
      s.products[idx]? = some x ∧
      (applyUpdateAt s idx b).2 = { s with products := u ++ updateFields x b :: v } ∧
      (applyUpdateAt s idx b).1 = .ok (updateFields x b) := by
  rcases findIndexJS_eq_some hfi with ⟨u, x, v, hd, hlen, hpx, _⟩
  have hget : s.products[idx]? = some x := by
    rw [hd, ← hlen]
    exact getAt_append_length u x v
  have hold : (s.products[idx]?).getD defaultProduct = x := by rw [hget]; rfl
  have hset : s.products.set idx (updateFields x b) = u ++ updateFields x b :: v := by
    rw [hd, ← hlen]
    exact set_append_length u x _ v
  refine ⟨u, x, v, hd, hlen, by simpa using hpx, hget, ?_, ?_⟩
  · simp only [applyUpdateAt]
    rw [hold, hset]
  · simp only [applyUpdateAt]
    rw [hold]

theorem updateHandler_IdInv {s : StoreState} {idStr : String} {b : UpdateBody}
    (h : IdInv s) : IdInv (updateProductHandler s idStr b).2 := by
  unfold updateProductHandler
  split
  · exact h
  · split
    · exact h
    · rename_i id hparse idx hfi
      have step : IdInv (applyUpdateAt s idx b).2 := by
        rcases applyUpdateAt_decomp (b := b) hfi with ⟨u, x, v, hd, hlen, hxid, hget, hst, hres⟩
        rw [hst]
        exact IdInv_set h hd rfl
      split
      · split
        · exact step
        · split
          · exact h
          · exact step
      · exact step

theorem deleteHandler_IdInv {s : StoreState} {idStr : String}
    (h : IdInv s) : IdInv (deleteProductHandler s idStr).2 := by
  unfold deleteProductHandler
  split
  · exact h
  · split
    · exact h
    · rename_i id hparse idx hfi
      rcases findIndexJS_eq_some hfi with ⟨u, x, v, hd, hlen, hpx, _⟩
      have hers : s.products.eraseIdx idx = u ++ v := by
        rw [hd, ← hlen]
        exact eraseIdx_append_length u x v
      dsimp only
      rw [hers]
      exact IdInv_erase h hd

theorem deleteHandler_NameInv {s : StoreState} {idStr : String}
    (h : NameInv s) : NameInv (deleteProductHandler s idStr).2 := by
  unfold deleteProductHandler
  split
  · exact h
  · split
    · exact h
    · rename_i id hparse idx hfi
      rcases findIndexJS_eq_some hfi with ⟨u, x, v, hd, hlen, hpx, _⟩
      have hers : s.products.eraseIdx idx = u ++ v := by
        rw [hd, ← hlen]
        exact eraseIdx_append_length u x v
      dsimp only
      rw [hers]
      exact NameInv_erase h hd

theorem updateHandler_NameInv {s : StoreState} {idStr : String} {b : UpdateBody}
    (h : NameInv s) (hbt : ∀ n, b.name = some n → jsTrim n = n)
    (hbe : ∀ n, b.name = some n → n ≠ ("")) :
    NameInv (updateProductHandler s idStr b).2 := by
  unfold updateProductHandler
  split
  · exact h
  · split
    · exact h
    · rename_i id hparse idx hfi
      rcases applyUpdateAt_decomp (b := b) hfi with ⟨u, x, v, hd, hlen, hxid, hget, hst, hres⟩
      split
      · rename_i n hn
        split
        · rename_i hne
          exact absurd (beq_iff_eq.mp hne) (hbe n hn)
        · split
          · exact h
          · rename_i hfind
            rw [hst]
            have hun : (updateFields x b).name = n := by simp [updateFields, hn]
            apply NameInv_set h hd ?_ ?_ ?_
            · rw [hun]
              exact hbt n hn
            · rfl
            · intro p hp hpid
              rw [hun]
              intro he
              apply List.find?_eq_none.mp hfind p hp
              rw [Bool.and_eq_true]
              refine ⟨bne_iff_ne.mpr ?_, beq_iff_eq.mpr ?_⟩
              · rw [← hxid]
                exact hpid
              · rw [hbt n hn]
                exact he
      · rename_i hn
        rw [hst]
        have hun : (updateFields x b).name = x.name := by simp [updateFields, hn]
        apply NameInv_set h hd ?_ ?_ ?_
        · rw [hun]
          exact h.1 x (List.getElem?_mem hget)
        · rfl
        · intro p hp hpid
          rw [hun]
          have hsymm : Symmetric (fun p q : Product => jsToLower p.name ≠ jsToLower q.name) :=
            fun _ _ hab => fun he => hab he.symm
          exact h.2.1.forall hsymm hp (List.getElem?_mem hget)
            (fun hpe => hpid (by rw [hpe]))

theorem postRoute_snd (k : Option String) (s : StoreState) (b : CreateBody) :
    (postProductsRoute k s b).2 = s ∨
    (postProductsRoute k s b).2 = (createProductHandler s b).2 := by
  unfold postProductsRoute
  split
  · exact Or.inl rfl
  · split
    · exact Or.inr rfl
    · exact Or.inl rfl

theorem putRoute_snd (k : Option String) (s : StoreState) (idStr : String) (b : UpdateBody) :
    (putProductRoute k s idStr b).2 = s ∨
    (putProductRoute k s idStr b).2 = (updateProductHandler s idStr b).2 := by
  unfold putProductRoute
  split
  · exact Or.inl rfl
  · split
    · exact Or.inr rfl
    · exact Or.inl rfl

theorem deleteRoute_snd (k : Option String) (s : StoreState) (idStr : String) :
    (deleteProductRoute k s idStr).2 = s ∨
    (deleteProductRoute k s idStr).2 = (deleteProductHandler s idStr).2 := by
  unfold deleteProductRoute
  split
  · exact Or.inl rfl
  · exact Or.inr rfl

theorem validateUpdate_name_nonempty {b : UpdateBody}
    (hval : validateProductUpdate b = []) :
    ∀ n, b.name = some n → n ≠ ("") := by
  intro n hn h0
  rw [h0] at hn
  simp [validateProductUpdate, hn] at hval

theorem applyOp_IdInv {s : StoreState} {op : Op} (h : IdInv s) : IdInv (applyOp s op) := by
  cases op with
  | create b =>
    show IdInv (postProductsRoute (some wValidKey) s b).2
    rcases postRoute_snd (some wValidKey) s b with h2 | h2 <;> rw [h2]
    · exact h
    · exact createHandler_IdInv h
  | update idStr b =>
    show IdInv (putProductRoute (some wValidKey) s idStr b).2
    rcases putRoute_snd (some wValidKey) s idStr b with h2 | h2 <;> rw [h2]
    · exact h
    · exact updateHandler_IdInv h
  | del idStr =>
    show IdInv (deleteProductRoute (some wValidKey) s idStr).2
    rcases deleteRoute_snd (some wValidKey) s idStr with h2 | h2 <;> rw [h2]
    · exact h
    · exact deleteHandler_IdInv h

theorem applyOp_NameInv {s : StoreState} {op : Op} (h : NameInv s)
    (hop : opNameTrimmed op = true) : NameInv (applyOp s op) := by
  cases op with
  | create b =>
    show NameInv (postProductsRoute (some wValidKey) s b).2
    rcases postRoute_snd (some wValidKey) s b with h2 | h2 <;> rw [h2]
    · exact h
    · exact createHandler_NameInv h
  | update idStr b =>
    show NameInv (putProductRoute (some wValidKey) s idStr b).2
    have hbt : ∀ n, b.name = some n → jsTrim n = n := by
      intro n hn
      simp only [opNameTrimmed, hn] at hop
      exact beq_iff_eq.mp hop
    unfold putProductRoute
    split
    · exact h
    · split
      · rename_i hval
        exact updateHandler_NameInv h hbt (validateUpdate_name_nonempty hval)
      · exact h
  | del idStr =>
    show NameInv (deleteProductRoute (some wValidKey) s idStr).2
    rcases deleteRoute_snd (some wValidKey) s idStr with h2 | h2 <;> rw [h2]
    · exact h
    · exact deleteHandler_NameInv h

theorem runOps_IdInv : ∀ (ops : List Op) (s : StoreState), IdInv s → IdInv (runOps s ops) := by
  intro ops
  induction ops with
  | nil => intro s h; exact h
  | cons op rest ih =>
    intro s h
    exact ih _ (applyOp_IdInv h)

theorem runOps_NameInv : ∀ (ops : List Op) (s : StoreState), NameInv s →
    (∀ op ∈ ops, opNameTrimmed op = true) → NameInv (runOps s ops) := by
  intro ops
  induction ops with
  | nil => intro s h _; exact h
  | cons op rest ih =>
    intro s h hops
    exact ih _ (applyOp_NameInv h (hops op (by simp))) (fun o ho => hops o (by simp [ho]))

theorem IdInv_initialState : IdInv initialState := by
  refine ⟨by decide, by decide, by decide⟩

theorem NameInv_initialState : NameInv initialState := by
  refine ⟨by decide, by decide, by decide, by decide⟩

/-- C1, counterexample to the claim as stated: in the (reachable) store
where product 1 has been renamed to `" Laptop Pro "`, the create payload
`"Laptop Pro"` matches it case-insensitively after trimming both, yet the
create operation does not yield Conflict and appends a second record —
the duplicate check compares the stored name untrimmed. -/
theorem c1_counterexample :
    (∃ p ∈ cexState1.products,
      jsToLower (jsTrim p.name) = jsToLower (jsTrim cexCreateBody.name)) ∧
    resultIsConflict (createProductHandler cexState1 cexCreateBody).1 = false ∧
    (createProductHandler cexState1 cexCreateBody).2.products.length =
      cexState1.products.length + 1 :=
  ⟨by decide, by decide, by decide⟩

/-- C1 (amended): for every store state and every create payload whose
trimmed, case-folded name equals the case-folded *stored* (untrimmed)
name of some live product, the create operation yields Conflict and the
store is left unchanged — no second record is appended. -/
theorem c1_create_duplicate_conflict_amended (s : StoreState) (b : CreateBody)
    (hdup : ∃ p ∈ s.products, jsToLower p.name = jsToLower (jsTrim b.name)) :
    createProductHandler s b =
      (.error (.conflict (("Product with name \"") ++ b.name ++ ("\" already exists"))), s) := by
  unfold createProductHandler
  split
  · rfl
  · rename_i hfind
    exfalso
    obtain ⟨p, hp, he⟩ := hdup
    exact (List.find?_eq_none.mp hfind p hp) (beq_iff_eq.mpr he)

/-- C1 witness: creating `"laptop pro"` against the initial store hits
seed product 1 and yields Conflict with the store unchanged. -/
theorem c1_amended_witness :
    createProductHandler initialState dupCreateBody =
      (.error (.conflict (("Product with name \"") ++ dupCreateBody.name ++
        ("\" already exists"))), initialState) :=
  c1_create_duplicate_conflict_amended initialState dupCreateBody
    ⟨seedLaptop, by decide, by decide⟩

/-- C2, counterexample to the claim as stated: after the reachable
sequence `update 1 {name: " Laptop Pro "}` then `create {name:
"Laptop Pro", ...}`, two simultaneously-live products have names that are
equal case-insensitively after trimming. -/
theorem c2_counterexample :
    ¬ List.Pairwise (fun p q : Product =>
      jsToLower (jsTrim p.name) ≠ jsToLower (jsTrim q.name))
      (runOps initialState cexOps).products := by decide

/-- C2 (amended): in every store state reachable from the initial store
by create, update and delete requests in which every update payload's
name, when present, is already trimmed, no two simultaneously-live
products have names that are equal case-insensitively after trimming. -/
theorem c2_no_duplicate_live_names_amended (ops : List Op)
    (hops : ∀ op ∈ ops, opNameTrimmed op = true) :
    List.Pairwise (fun p q : Product =>
      jsToLower (jsTrim p.name) ≠ jsToLower (jsTrim q.name))
      (runOps initialState ops).products := by
  obtain ⟨htrim, hpair, _, _⟩ := runOps_NameInv ops initialState NameInv_initialState hops
  refine List.Pairwise.imp_of_mem ?_ hpair
  intro a c ha hc hne
  rw [htrim a ha, htrim c hc]
  exact hne

/-- C2 witness: the invariant holds for the store reached by creating one
fresh product. -/
theorem c2_amended_witness :
    List.Pairwise (fun p q : Product =>
      jsToLower (jsTrim p.name) ≠ jsToLower (jsTrim q.name))
      (runOps initialState [Op.create wCreateBody]).products :=
  c2_no_duplicate_live_names_amended [Op.create wCreateBody] (by decide)

/-- C5: along every request sequence from the initial store, the ghost
assignment history is strictly increasing in chronological order (so
every freshly created record's ID is strictly greater than every ID ever
assigned before, including IDs of since-deleted products), no ID is ever
assigned twice, every live product's ID appears in the history, and a
successful create assigns exactly `nextId` and appends it to the
history. -/
theorem c5_ids_strictly_increasing_never_reused (ops : List Op) :
    List.Pairwise (· < ·) (runOps initialState ops).assigned ∧
    (runOps initialState ops).assigned.Nodup ∧
    (∀ p ∈ (runOps initialState ops).products,
      p.id ∈ (runOps initialState ops).assigned) ∧
    (∀ (b : CreateBody) (p : Product) (s' : StoreState),
      createProductHandler (runOps initialState ops) b = (.ok p, s') →
      p.id = (runOps initialState ops).nextId ∧
      (∀ i ∈ (runOps initialState ops).assigned, i < p.id) ∧
      s'.assigned = (runOps initialState ops).assigned ++ [p.id]) := by
  obtain ⟨h1, h2, h3⟩ := runOps_IdInv ops initialState IdInv_initialState
  refine ⟨h1, List.Pairwise.imp (fun hlt => ne_of_lt hlt) h1, h3, ?_⟩
  intro b p s' hc
  revert hc
  unfold createProductHandler
  split
  · intro hc
    simp at hc
  · intro hc
    simp only [Prod.mk.injEq, Except.ok.injEq] at hc
    obtain ⟨hp, hs⟩ := hc
    subst hp
    subst hs
    refine ⟨rfl, ?_, rfl⟩
    intro i hi
    show i < (runOps initialState ops).nextId
    exact h2 i hi

/-- C5 witness: the create characterization at the initial store — the
new record gets id `nextId = 4` and the history is extended by it. -/
theorem c5_witness :
    wNewProduct.id = (runOps initialState []).nextId ∧
    wStateAfter.assigned = (runOps initialState []).assigned ++ [wNewProduct.id] := by
  have h := (c5_ids_strictly_increasing_never_reused []).2.2.2 wCreateBody
    wNewProduct wStateAfter rfl
  exact ⟨h.1, h.2.2⟩

/-- C3, code-bug evidence: the success response of GET `/api/products/1`
(valid key) is the bare product object — its keys are exactly the six
product fields and there is no `success` key, contradicting the claimed
`{success: true, ...payload}` envelope (and the repository README, which
documents `{"success": true, "data": {...}}` for this endpoint). -/
theorem c3_get_by_id_response_not_enveloped :
    getProductByIdResponse initialState ("1") = Except.ok (productToJson seedLaptop) ∧
    jsonKeys (productToJson seedLaptop) =
      [("id"), ("name"), ("description"), ("price"), ("category"), ("inStock")] ∧
    (jsonKeys (productToJson seedLaptop)).contains ("success") = false :=
  ⟨rfl, rfl, by decide⟩

/-- C4: for every store and every list query, the GET `/api/products`
handler computes its pagination metadata from the length of the
collection after search, filters and sort but before pagination, and its
data is exactly that collection paginated — i.e. the pipeline order is
search → filters → sort → count → paginate. -/
theorem c4_list_pipeline_order (s : StoreState) (qp : ListQuery) :
    (listProductsHandler s qp).pagination.totalItems =
      (listPipelineBeforePagination s qp).length ∧
    (listProductsHandler s qp).data =
      paginateProducts (listPipelineBeforePagination s qp)
        (parsePagination qp).skip (parsePagination qp).limit ∧
    (listProductsHandler s qp).pagination =
      createPaginationMeta (listPipelineBeforePagination s qp).length
        (parsePagination qp).page (parsePagination qp).limit :=
  ⟨rfl, rfl, rfl⟩

/-- C6: a request without the `x-api-key` header is rejected as
Unauthorized (status 401) and one with a key outside the allow-list as
Forbidden (status 403); in both cases the store is returned unchanged and
the outcome is the same for every body and every store, so neither
validation nor any store access has any effect. -/
theorem c6_auth_gate_first (s : StoreState) (b : CreateBody) (qp : ListQuery) (k : String) :
    postProductsRoute none s b = (.error .unauthorized, s) ∧
    listProductsRoute none s qp = .error .unauthorized ∧
    statusCode .unauthorized = 401 ∧
    statusCode .forbidden = 403 ∧
    (k ∉ validApiKeys →
      postProductsRoute (some k) s b = (.error .forbidden, s) ∧
      listProductsRoute (some k) s qp = .error .forbidden) := by
  refine ⟨rfl, rfl, rfl, rfl, ?_⟩
  intro hk
  constructor
  · simp [postProductsRoute, authenticateApiKey, hk]
  · simp [listProductsRoute, authenticateApiKey, hk]

/-- C6 witness: a create request with no key gets Unauthorized and one
with the key `"bad-key"` gets Forbidden, the store untouched both
times. -/
theorem c6_witness :
    postProductsRoute none initialState wCreateBody = (.error .unauthorized, initialState) ∧
    postProductsRoute (some ("bad-key")) initialState wCreateBody =
      (.error .forbidden, initialState) := by
  have h := c6_auth_gate_first initialState wCreateBody {} ("bad-key")
  exact ⟨h.1, (h.2.2.2.2 (by decide)).1⟩

/-- C7: for every list and all natural `skip` and `limit`,
`paginateProducts` returns a slice whose length is
`min limit (length - skip)` (truncated subtraction, i.e.
`min(limit, max(0, length - skip))`), and the slice is empty whenever
`skip` reaches the length. -/
theorem c7_paginate_length {α : Type} (l : List α) (sk lim : Nat) :
    (paginateProducts l sk lim).length = min lim (l.length - sk) ∧
    (l.length ≤ sk → paginateProducts l sk lim = []) := by
  constructor
  · simp [paginateProducts]
  · intro h
    simp [paginateProducts, List.drop_eq_nil_of_le h]

/-- C7 witness: a page past the end of a three-element list is empty. -/
theorem c7_witness : paginateProducts ([1, 2, 3] : List Nat) 5 2 = [] :=
  (c7_paginate_length [1, 2, 3] 5 2).2 (by decide)

/-- C8: whenever an update succeeds, only the targeted record changes,
and within it exactly the fields present in the payload are overwritten
(each absent field keeps its stored value, the id is never changed);
every other position of the products list is untouched, the id counter
and assignment history are untouched, and the empty payload leaves the
whole store exactly as it was. -/
theorem c8_update_frame (s : StoreState) (idStr : String) (b : UpdateBody)
    (p : Product) (s' : StoreState)
    (h : updateProductHandler s idStr b = (.ok p, s')) :
    s'.nextId = s.nextId ∧ s'.assigned = s.assigned ∧
    (∃ idx old, s.products[idx]? = some old ∧ p = updateFields old b ∧
      p.id = old.id ∧
      p.name = b.name.getD old.name ∧
      p.description = b.description.getD old.description ∧
      p.price = b.price.getD old.price ∧
      p.category = b.category.getD old.category ∧
      p.inStock = b.inStock.getD old.inStock ∧
      s'.products = s.products.set idx p ∧
      (∀ j, j ≠ idx → s'.products[j]? = s.products[j]?)) ∧
    (b = emptyUpdateBody → s' = s) := by
  revert h
  unfold updateProductHandler
  split
  · intro h
    simp at h
  · split
    · intro h
      simp at h
    · rename_i id hparse idx hfi
      have key : applyUpdateAt s idx b = (.ok p, s') →
          s'.nextId = s.nextId ∧ s'.assigned = s.assigned ∧
          (∃ idx2 old, s.products[idx2]? = some old ∧ p = updateFields old b ∧
            p.id = old.id ∧
            p.name = b.name.getD old.name ∧
            p.description = b.description.getD old.description ∧
            p.price = b.price.getD old.price ∧
            p.category = b.category.getD old.category ∧
            p.inStock = b.inStock.getD old.inStock ∧
            s'.products = s.products.set idx2 p ∧
            (∀ j, j ≠ idx2 → s'.products[j]? = s.products[j]?)) ∧
          (b = emptyUpdateBody → s' = s) := by
        intro h
        rcases applyUpdateAt_decomp (b := b) hfi with ⟨u, x, v, hd, hlen, hxid, hget, hst, hres⟩
        have h1 : (applyUpdateAt s idx b).1 = .ok p := by rw [h]
        have h2 : (applyUpdateAt s idx b).2 = s' := by rw [h]
        rw [hres] at h1
        have hpu : p = updateFields x b := (Except.ok.inj h1).symm
        rw [hst] at h2
        have hsetp : s.products.set idx p = u ++ p :: v := by
          rw [hd, ← hlen, hpu]
          exact set_append_length u x _ v
        have hsp : s'.products = s.products.set idx p := by
          rw [hsetp, ← h2]
          show u ++ updateFields x b :: v = u ++ p :: v
          rw [hpu]
        refine ⟨by rw [← h2], by rw [← h2], ⟨idx, x, hget, hpu, ?_, ?_, ?_, ?_, ?_, ?_, hsp, ?_⟩, ?_⟩
        · simp [hpu, updateFields]
        · simp [hpu, updateFields]
        · simp [hpu, updateFields]
        · simp [hpu, updateFields]
        · simp [hpu, updateFields]
        · simp [hpu, updateFields]
        · intro j hj
          rw [hsp]
          exact List.getElem?_set_ne (fun he => hj he.symm)
        · intro hb
          subst hb
          have hxx : updateFields x emptyUpdateBody = x := rfl
          rw [← h2, hxx, ← hd]
      split
      · split
        · exact key
        · split
          · intro h
            simp at h
          · exact key
      · exact key

/-- C8 witness: updating product 2 with a price-only payload succeeds
with result `wMouseAfter` and state `wStateUpd`, and by the frame theorem
the id counter and assignment history are untouched. -/
theorem c8_witness :
    wStateUpd.nextId = initialState.nextId ∧
    wStateUpd.assigned = initialState.assigned := by
  have h := c8_update_frame initialState ("2") wUpdBody wMouseAfter wStateUpd rfl
  exact ⟨h.1, h.2.1⟩

/-- C9: whenever the create, update or delete handler signals an error
(BadRequest, NotFound or Conflict), the returned store — products list,
id counter and assignment history — is exactly the store the handler was
given; all checks run before any mutation. -/
theorem c9_error_leaves_store_unchanged (s : StoreState) (b : CreateBody)
    (idStr : String) (ub : UpdateBody) :
    (resultIsError (createProductHandler s b).1 = true →
      (createProductHandler s b).2 = s) ∧
    (resultIsError (updateProductHandler s idStr ub).1 = true →
      (updateProductHandler s idStr ub).2 = s) ∧
    (resultIsError (deleteProductHandler s idStr).1 = true →
      (deleteProductHandler s idStr).2 = s) := by
  refine ⟨?_, ?_, ?_⟩
  · unfold createProductHandler
    split
    · intro _
      rfl
    · intro h
      simp [resultIsError] at h
  · unfold updateProductHandler
    split
    · intro _
      rfl
    · split
      · intro _
        rfl
      · rename_i id hparse idx hfi
        have hok : resultIsError (applyUpdateAt s idx ub).1 = true → False := by
          rcases applyUpdateAt_decomp (b := ub) hfi with ⟨u, x, v, _, _, _, _, _, hres⟩
          rw [hres]
          intro h
          simp [resultIsError] at h
        split
        · split
          · intro h
            exact absurd h (fun hh => hok hh)
          · split
            · intro _
              rfl
            · intro h
              exact absurd h (fun hh => hok hh)
        · intro h
          exact absurd h (fun hh => hok hh)
  · unfold deleteProductHandler
    split
    · intro _
      rfl
    · split
      · intro _
        rfl
      · intro h
        simp [resultIsError] at h

/-- C9 witness: a Conflict on create, a NotFound on update and a NotFound
on delete each leave the initial store exactly as it was. -/
theorem c9_witness :
    (createProductHandler initialState dupCreateBody).2 = initialState ∧
    (updateProductHandler initialState ("99") emptyUpdateBody).2 = initialState ∧
    (deleteProductHandler initialState ("99")).2 = initialState := by
  have h := c9_error_leaves_store_unchanged initialState dupCreateBody ("99") emptyUpdateBody
  exact ⟨h.1 (by decide), h.2.1 (by decide), h.2.2 (by decide)⟩

/-- C10: for GET, PUT and DELETE on `/api/products/:id`, BadRequest is
signalled exactly when JavaScript `parseInt` finds no parseable leading
number in the id parameter; when a leading number parses (as with
`"1abc"`, which parses to 1) the handlers operate on the product carrying
that numeric id when it exists. -/
theorem c10_id_parsing :
    (∀ (s : StoreState) (idStr : String) (b : UpdateBody),
      (resultIsBadRequest (getProductByIdHandler s idStr) = true ↔
        parseIntJS idStr = none) ∧
      (resultIsBadRequest (updateProductHandler s idStr b).1 = true ↔
        parseIntJS idStr = none) ∧
      (resultIsBadRequest (deleteProductHandler s idStr).1 = true ↔
        parseIntJS idStr = none) ∧
      (∀ (n : Int) (p : Product), parseIntJS idStr = some n →
        s.products.find? (fun q => q.id == n) = some p →
        getProductByIdHandler s idStr = .ok p)) ∧
    parseIntJS ("1abc") = some 1 := by
  refine ⟨?_, by decide⟩
  intro s idStr b
  refine ⟨?_, ?_, ?_, ?_⟩
  · unfold getProductByIdHandler
    cases hp : parseIntJS idStr with
    | none => simp [resultIsBadRequest]
    | some id =>
      cases hf : s.products.find? (fun q => q.id == id) with
      | none => simp [resultIsBadRequest, hf]
      | some q => simp [resultIsBadRequest, hf]
  · unfold updateProductHandler
    cases hp : parseIntJS idStr with
    | none => simp [resultIsBadRequest]
    | some id =>
      cases hfi : findIndexJS (fun q => q.id == id) s.products with
      | none => simp [resultIsBadRequest, hfi]
      | some idx =>
        have hok : resultIsBadRequest (applyUpdateAt s idx b).1 = false := by
          rcases applyUpdateAt_decomp (b := b) hfi with ⟨u, x, v, _, _, _, _, _, hres⟩
          rw [hres]
          rfl
        cases hbn : b.name with
        | none => simp [hfi, hbn, hok]
        | some n =>
          by_cases hne : n = ("")
          · simp [hfi, hbn, hne, hok, beq_iff_eq]
          · cases hfd : s.products.find?
                (fun q => (q.id != id) && (jsToLower q.name == jsToLower (jsTrim n))) with
            | none => simp [hfi, hbn, hne, hfd, hok, beq_iff_eq]
            | some q2 => simp [resultIsBadRequest, hfi, hbn, hne, hfd, beq_iff_eq]
  · unfold deleteProductHandler
    cases hp : parseIntJS idStr with
    | none => simp [resultIsBadRequest]
    | some id =>
      cases hfi : findIndexJS (fun q => q.id == id) s.products with
      | none => simp [resultIsBadRequest, hfi]
      | some idx => simp [resultIsBadRequest, hfi]
  · intro n p hpn hfind
    unfold getProductByIdHandler
    simp [hpn, hfind]

/-- C10 witness: GET `/api/products/1abc` returns seed product 1, since
`parseInt` reads the prefix 1. -/
theorem c10_witness : getProductByIdHandler initialState ("1abc") = Except.ok seedLaptop :=
  (c10_id_parsing.1 initialState ("1abc") emptyUpdateBody).2.2.2 1 seedLaptop
    (by decide) (by decide)
